import Mathlib

/-
  Verification of the A2KReturns submission controller
  (source: src/src/App.tsx, the `App` component).

  The embedding models the data the component keeps in React state
  (`formData`, `isSubmitting`, `submitStatus`), the `handleSubmit`
  function as a pure function from the current form data and a
  description of how the network exchange resolves to the observable
  effects it performs (status assignments, network requests, scheduled
  `setTimeout` callbacks, abort of the in-flight request), and the
  `handleKeyDown` Ctrl+Enter entry point.  A small event-loop model
  (`World`, `submitAt`, `fireDue`) runs several attempts on one
  timeline to reason about the interaction of pending reset timers
  across attempts.
-/

namespace A2KReturns

/-- The `Status` field of the form: source type `'Tracked' | 'Untracked' | ''`
(App.tsx line 7); `unset` stands for the empty string. -/
inductive TrackStatus
  | tracked
  | untracked
  | unset
deriving DecidableEq

/-- The `Store` field of the form: source type `'slidezz' | 'TT' | 'a2k' | ''`
(App.tsx line 9); `unset` stands for the empty string. -/
inductive StoreKind
  | slidezz
  | tt
  | a2k
  | unset
deriving DecidableEq

/-- The string each `TrackStatus` value denotes in the source. -/
def statusStr : TrackStatus → String
  | .tracked => "Tracked"
  | .untracked => "Untracked"
  | .unset => ""

/-- The string each `StoreKind` value denotes in the source. -/
def storeStr : StoreKind → String
  | .slidezz => "slidezz"
  | .tt => "TT"
  | .a2k => "a2k"
  | .unset => ""

/-- The `FormData` interface (App.tsx lines 5-11): the five fields of the
draft record. -/
structure FormData where
  OrderNumber : String
  Status : TrackStatus
  Link : String
  Store : StoreKind
  Action : String
deriving DecidableEq

/-- The initial / reset value of the form state (App.tsx lines 22-28 and
88-94): every field empty or unset. -/
def emptyForm : FormData :=
  { OrderNumber := "", Status := .unset, Link := "", Store := .unset, Action := "" }

/-- The `submitStatus` state variable (App.tsx line 20):
`'idle' | 'success' | 'error'`.  (`isSubmitting` is a separate boolean in
the source; the spec's `Submitting` state corresponds to `isSubmitting = true`.) -/
inductive SubmitStatus
  | idle
  | success
  | error
deriving DecidableEq

/-- The fixed webhook endpoint (App.tsx line 68). -/
def webhookUrl : String := "https://n8n.a2kai.co.uk/webhook/order-submission"

/-- The accepted-success string compared against `responseData.message`
(App.tsx line 85). -/
def acceptedMessage : String := "Workflow was started"

/-- The 50-second cancellation budget (App.tsx line 64). -/
def timeoutMs : Nat := 50000

/-- Client-side validation (App.tsx line 51):
`!formData.OrderNumber || !formData.Status || !formData.Store`.
A JavaScript string is falsy exactly when it is empty, so the record is
valid iff none of the three strings is empty. -/
def isValid (fd : FormData) : Bool :=
  !(fd.OrderNumber == "" || statusStr fd.Status == "" || storeStr fd.Store == "")

/-- Result of `await response.json()` (App.tsx line 80): either the body
parses, carrying an optional `message` field, or parsing throws. -/
inductive BodyResult
  | parsed (message : Option String)
  | parseError
deriving DecidableEq

/-- How the network exchange started at App.tsx line 68 would resolve, as
an environment parameter: either the `fetch` promise resolves after
`delayMs` milliseconds with an HTTP status and a body, or it rejects after
`delayMs` milliseconds with a transport failure.  The 50-second abort
timer races against this delay. -/
inductive FetchResult
  | arrived (delayMs : Nat) (httpStatus : Nat) (body : BodyResult)
  | netFailure (delayMs : Nat)
deriving DecidableEq

/-- The resolution delay of the exchange, ignoring the abort race. -/
def envDelay : FetchResult → Nat
  | .arrived d _ _ => d
  | .netFailure d => d

/-- `response.ok` of the Fetch API: true exactly for 2xx statuses. -/
def respOk (status : Nat) : Bool :=
  200 ≤ status && status < 300

/-- Whether the 50-second abort timer fires before the exchange resolves
(App.tsx lines 62-64): the timer is armed for `timeoutMs` and is cleared
as soon as `fetch` resolves (line 77), so it fires iff resolution takes
longer than `timeoutMs`. -/
def abortFired (env : FetchResult) : Bool :=
  timeoutMs < envDelay env

/-- Whether `response.json()` is ever invoked for this exchange: it runs
exactly when the `fetch` promise resolves with a response (App.tsx line
80), before `response.ok` is consulted.  An aborted or transport-failed
exchange rejects, jumping to the catch block without a parse attempt. -/
def parseAttempted (env : FetchResult) : Bool :=
  !(abortFired env) &&
    (match env with
     | .arrived _ _ _ => true
     | .netFailure _ => false)

/-- The UI-visible outcome classification of one exchange: the success
branch (App.tsx line 85) requires the exchange to resolve before the
abort timer, `response.ok`, a parseable body, and
`message === 'Workflow was started'`; everything else reaches either the
else branch (line 104) or the catch block (line 110), both of which set
the error status. -/
inductive Outcome
  | success
  | failure
deriving DecidableEq

/-- Classify the resolution of the exchange (App.tsx lines 79-119). -/
def classify (env : FetchResult) : Outcome :=
  if abortFired env then .failure
  else
    match env with
    | .netFailure _ => .failure
    | .arrived _ st body =>
      match body with
      | .parseError => .failure
      | .parsed msg =>
        if respOk st && msg == some acceptedMessage then .success else .failure

/-- Time at which the `try` block resumes (either the response/failure
arrives, or the abort at `timeoutMs` makes `fetch` reject immediately). -/
def resolveDelay (env : FetchResult) : Nat :=
  min (envDelay env) timeoutMs

/-- An outgoing HTTP request as issued at App.tsx lines 68-75; the body is
`JSON.stringify(formData)`, recorded as the ordered field list. -/
structure Request where
  url : String
  method : String
  contentType : String
  body : List (String × String)
deriving DecidableEq

/-- `JSON.stringify(formData)` (App.tsx line 73): the five interface
fields in declaration order, enum fields as their string form. -/
def serializeForm (fd : FormData) : List (String × String) :=
  [("OrderNumber", fd.OrderNumber),
   ("Status", statusStr fd.Status),
   ("Link", fd.Link),
   ("Store", storeStr fd.Store),
   ("Action", fd.Action)]

/-- The request `handleSubmit` issues for a given form state. -/
def mkRequest (fd : FormData) : Request :=
  { url := webhookUrl, method := "POST", contentType := "application/json",
    body := serializeForm fd }

/-- What a `setTimeout` callback scheduled by `handleSubmit` does when it
fires: the error-path callbacks set the status to idle (App.tsx lines 53,
108, 119); the success-path callback sets it to idle and focuses the
first field (lines 97-102). -/
inductive TimerAction
  | toIdle
  | toIdleFocus
deriving DecidableEq

/-- A reset timer scheduled during one attempt: delay in milliseconds
from the moment it is scheduled, plus its action. -/
structure TimerSpec where
  delayMs : Nat
  action : TimerAction
deriving DecidableEq

/-- The observable effects of one `handleSubmit` invocation:
final values of the state variables, the network calls issued, whether
`controller.abort()` ran, whether `response.json()` ran, the ordered
trace of `setSubmitStatus` assignments performed synchronously with the
attempt, and the reset timers still pending when the invocation returns. -/
structure SubmitResult where
  finalStatus : SubmitStatus
  isSubmitting : Bool
  formData : FormData
  requests : List Request
  aborted : Bool
  bodyParseAttempted : Bool
  statusSets : List SubmitStatus
  scheduledResets : List TimerSpec
deriving DecidableEq

/-- The `handleSubmit` function (App.tsx lines 47-124) as a function of
the current form data and the environment's exchange resolution.

* Invalid record (line 51): status error, 3000 ms reset, no fetch.
* Valid record: `setIsSubmitting(true)`, `setSubmitStatus('idle')`
  (lines 58-59), one fetch (line 68), then:
  - success branch (lines 85-102): status success, form cleared,
    2000 ms reset-and-focus timer;
  - any other resolution (lines 104-119): status error, 3000 ms reset;
* `finally` (line 122): `setIsSubmitting(false)` in every case. -/
def handleSubmit (fd : FormData) (env : FetchResult) : SubmitResult :=
  if !(isValid fd) then
    { finalStatus := .error, isSubmitting := false, formData := fd,
      requests := [], aborted := false, bodyParseAttempted := false,
      statusSets := [.error],
      scheduledResets := [{ delayMs := 3000, action := .toIdle }] }
  else
    match classify env with
    | .success =>
      { finalStatus := .success, isSubmitting := false, formData := emptyForm,
        requests := [mkRequest fd], aborted := false, bodyParseAttempted := true,
        statusSets := [.idle, .success],
        scheduledResets := [{ delayMs := 2000, action := .toIdleFocus }] }
    | .failure =>
      { finalStatus := .error, isSubmitting := false, formData := fd,
        requests := [mkRequest fd], aborted := abortFired env,
        bodyParseAttempted := parseAttempted env,
        statusSets := [.idle, .error],
        scheduledResets := [{ delayMs := 3000, action := .toIdle }] }

/-- The submit button's `disabled` attribute (App.tsx line 325):
exactly the `isSubmitting` flag. -/
def submitButtonDisabled (isSubmitting : Bool) : Bool :=
  isSubmitting

/-- A keyboard event as far as `handleKeyDown` inspects it. -/
structure KeyEvent where
  ctrlKey : Bool
  key : String
deriving DecidableEq

/-- The `handleKeyDown` entry point (App.tsx lines 130-134): on
Ctrl+Enter it calls `handleSubmit` directly.  It never consults
`isSubmitting`, so the model takes the flag and ignores it exactly as
the source does. -/
def handleKeyDown (ev : KeyEvent) (_isSubmitting : Bool) (fd : FormData)
    (env : FetchResult) : Option SubmitResult :=
  if ev.ctrlKey && ev.key == "Enter" then some (handleSubmit fd env) else none

/-! ### Event-loop model for multi-attempt timelines

`handleSubmit` schedules its status-reset callbacks with `setTimeout` and
never stores their ids, so no later code can clear them (the only
`clearTimeout` in the source, lines 77 and 111, targets the abort timer).
To reason about several attempts on one timeline we keep the pending
reset timers in a world state and fire them at their absolute times, as
the JavaScript event loop would. -/

/-- A pending `setTimeout` reset callback: absolute fire time and action. -/
structure Timer where
  fireAt : Nat
  action : TimerAction
deriving DecidableEq

/-- The session state visible across attempts: current time, the React
state variables, the pending reset timers, and the trace of
`setSubmitStatus` assignments as (time, value) pairs. -/
structure World where
  now : Nat
  status : SubmitStatus
  isSubmitting : Bool
  fd : FormData
  timers : List Timer
  trace : List (Nat × SubmitStatus)
deriving DecidableEq

/-- Insert a timer keeping the pending list sorted by fire time (a later
`setTimeout` with an earlier deadline still fires first). -/
def insertTimer : List Timer → Timer → List Timer
  | [], tm => [tm]
  | t0 :: rest, tm =>
    if tm.fireAt < t0.fireAt then tm :: t0 :: rest else t0 :: insertTimer rest tm

/-- Fire every pending timer due by time `t`, in deadline order.  Each of
the source's reset callbacks sets the status to idle at its own fire
time (App.tsx lines 53, 97-102, 108, 119). -/
def fireDueAux : List Timer → Nat → SubmitStatus → List (Nat × SubmitStatus) →
    List Timer × SubmitStatus × List (Nat × SubmitStatus)
  | [], _, st, tr => ([], st, tr)
  | tm :: rest, t, st, tr =>
    if tm.fireAt ≤ t then
      fireDueAux rest t .idle (tr ++ [(tm.fireAt, .idle)])
    else (tm :: rest, st, tr)

/-- Advance the world to time `t`, firing every due reset timer. -/
def fireDue (w : World) (t : Nat) : World :=
  match fireDueAux w.timers t w.status w.trace with
  | (tms, st, tr) => { w with now := t, timers := tms, status := st, trace := tr }

/-- Run one `handleSubmit` invocation triggered at time `t` on the shared
timeline.  Timers due before the trigger fire first; during the `await`
window (from `t` to the exchange's resolution) due timers also fire, as
the event loop is free while the promise is pending.  The attempt itself
performs the same mutations as `handleSubmit` and schedules its reset
timer at an absolute deadline; it clears no pending reset timer, because
the source never retains their ids. -/
def submitAt (w : World) (t : Nat) (env : FetchResult) : World :=
  let wA := fireDue w t
  if !(isValid wA.fd) then
    { wA with
      status := .error,
      trace := wA.trace ++ [(t, .error)],
      timers := insertTimer wA.timers { fireAt := t + 3000, action := .toIdle } }
  else
    let wB := { wA with
                isSubmitting := true,
                status := .idle,
                trace := wA.trace ++ [(t, .idle)] }
    let tEnd := t + resolveDelay env
    let wC := fireDue wB tEnd
    match classify env with
    | .success =>
      { wC with
        now := tEnd,
        isSubmitting := false,
        status := .success,
        fd := emptyForm,
        trace := wC.trace ++ [(tEnd, .success)],
        timers := insertTimer wC.timers { fireAt := tEnd + 2000, action := .toIdleFocus } }
    | .failure =>
      { wC with
        now := tEnd,
        isSubmitting := false,
        status := .error,
        trace := wC.trace ++ [(tEnd, .error)],
        timers := insertTimer wC.timers { fireAt := tEnd + 3000, action := .toIdle } }

/-- A fresh session: time 0, idle, empty form, no pending timers. -/
def initialWorld : World :=
  { now := 0, status := .idle, isSubmitting := false, fd := emptyForm,
    timers := [], trace := [] }

/-! ### Concrete fixtures used in witnesses and counterexamples -/

/-- The spec's concrete scenario record (spec section 8):
`{orderNumber:"ORD-1", trackingStatus:Tracked, link:"", store:a2k, action:""}`. -/
def fdC : FormData :=
  { OrderNumber := "ORD-1", Status := .tracked, Link := "", Store := .a2k, Action := "" }

/-- A record whose order number is a single space. -/
def fdWS : FormData :=
  { OrderNumber := " ", Status := .tracked, Link := "", Store := .a2k, Action := "" }

/-- A fast 200 response whose body carries the accepted-success message. -/
def envOkC : FetchResult :=
  .arrived 100 200 (.parsed (some acceptedMessage))

/-- A fast 200 response whose body carries a rejected message. -/
def envRejC : FetchResult :=
  .arrived 100 200 (.parsed (some "Workflow failed"))

/-- A fast 500 response with a rejected message. -/
def envErrFast : FetchResult :=
  .arrived 100 500 (.parsed (some "Workflow failed"))

/-- The session world after the operator has filled in the scenario record. -/
def w0C : World :=
  { initialWorld with fd := fdC }

/-! ### Claims -/

/-- Claim C1: for a valid record, if the exchange resolves within the
50-second budget with a 2xx status and a JSON-parseable body whose
`message` equals the accepted-success string, then `handleSubmit` sets
the status to success, resets the form to its empty defaults, and leaves
exactly one pending 2000 ms timer that resets the status to idle and
focuses the first field. -/
theorem C1_success_outcome (fd : FormData) (d st : Nat) (msg : String)
    (hvalid : isValid fd = true) (hd : d ≤ timeoutMs) (hok : respOk st = true)
    (hmsg : msg = acceptedMessage) :
    (handleSubmit fd (.arrived d st (.parsed (some msg)))).finalStatus = .success ∧
    (handleSubmit fd (.arrived d st (.parsed (some msg)))).formData = emptyForm ∧
    (handleSubmit fd (.arrived d st (.parsed (some msg)))).scheduledResets =
      [{ delayMs := 2000, action := .toIdleFocus }] := by
  subst hmsg
  have hab : abortFired (.arrived d st (.parsed (some acceptedMessage))) = false := by
    simp [abortFired, envDelay]
    exact hd
  have hc : classify (.arrived d st (.parsed (some acceptedMessage))) = .success := by
    simp [classify, hab, hok]
  simp [handleSubmit, hvalid, hc]

/-- Witness for C1 at the spec's concrete scenario. -/
theorem C1_success_outcome_witness :
    (handleSubmit fdC (.arrived 100 200 (.parsed (some acceptedMessage)))).finalStatus =
        SubmitStatus.success ∧
    (handleSubmit fdC (.arrived 100 200 (.parsed (some acceptedMessage)))).formData =
        emptyForm ∧
    (handleSubmit fdC (.arrived 100 200 (.parsed (some acceptedMessage)))).scheduledResets =
      [{ delayMs := 2000, action := .toIdleFocus }] :=
  C1_success_outcome fdC 100 200 acceptedMessage (by decide) (by decide) (by decide) rfl

/-- Claim C2: for a record with an empty order number, or an unset
tracking status, or an unset store, `handleSubmit` sets the status to
error, issues no network call, leaves the form data unchanged, and
schedules one 3000 ms reset to idle. -/
theorem C2_validation_failure (fd : FormData) (env : FetchResult)
    (h : fd.OrderNumber = "" ∨ fd.Status = TrackStatus.unset ∨ fd.Store = StoreKind.unset) :
    (handleSubmit fd env).finalStatus = .error ∧
    (handleSubmit fd env).requests = [] ∧
    (handleSubmit fd env).formData = fd ∧
    (handleSubmit fd env).scheduledResets = [{ delayMs := 3000, action := .toIdle }] := by
  have hv : isValid fd = false := by
    rcases h with h | h | h
    · simp [isValid, h]
    · simp [isValid, h, statusStr]
    · simp [isValid, h, storeStr]
  simp [handleSubmit, hv]

/-- Witness for C2 on a record missing its tracking status. -/
theorem C2_validation_failure_witness :
    (handleSubmit { fdC with Status := .unset } envOkC).finalStatus = SubmitStatus.error ∧
    (handleSubmit { fdC with Status := .unset } envOkC).requests = [] ∧
    (handleSubmit { fdC with Status := .unset } envOkC).formData =
      { fdC with Status := .unset } ∧
    (handleSubmit { fdC with Status := .unset } envOkC).scheduledResets =
      [{ delayMs := 3000, action := .toIdle }] :=
  C2_validation_failure { fdC with Status := .unset } envOkC (Or.inr (Or.inl rfl))

/-- Claim C6: for every valid record and every exchange resolution,
`handleSubmit` issues exactly one POST request to the configured
endpoint with the JSON content type, whose body has exactly the five
fields in order, with the enum fields carrying their string form. -/
theorem C6_request_shape (fd : FormData) (env : FetchResult)
    (hvalid : isValid fd = true) :
    (handleSubmit fd env).requests =
      [{ url := webhookUrl, method := "POST", contentType := "application/json",
         body := [("OrderNumber", fd.OrderNumber),
                  ("Status", statusStr fd.Status),
                  ("Link", fd.Link),
                  ("Store", storeStr fd.Store),
                  ("Action", fd.Action)] }] := by
  cases hc : classify env <;>
    simp [handleSubmit, hvalid, hc, mkRequest, serializeForm]

/-- Witness for C6 at the concrete scenario record. -/
theorem C6_request_shape_witness :
    (handleSubmit fdC envOkC).requests =
      [{ url := webhookUrl, method := "POST", contentType := "application/json",
         body := [("OrderNumber", fdC.OrderNumber),
                  ("Status", statusStr fdC.Status),
                  ("Link", fdC.Link),
                  ("Store", storeStr fdC.Store),
                  ("Action", fdC.Action)] }] :=
  C6_request_shape fdC envOkC (by decide)

/-- Claim C9: for every valid record and every exchange resolution
(success, rejected message, transport failure, timeout, or parse
failure), `handleSubmit` returns with `isSubmitting` cleared, while its
status-reset timer is still pending. -/
theorem C9_submitting_cleared (fd : FormData) (env : FetchResult)
    (hvalid : isValid fd = true) :
    (handleSubmit fd env).isSubmitting = false ∧
    (handleSubmit fd env).scheduledResets ≠ [] := by
  cases hc : classify env <;> simp [handleSubmit, hvalid, hc]

/-- Witness for C9 at a timed-out exchange. -/
theorem C9_submitting_cleared_witness :
    (handleSubmit fdC (.netFailure 60000)).isSubmitting = false ∧
    (handleSubmit fdC (.netFailure 60000)).scheduledResets ≠ [] :=
  C9_submitting_cleared fdC (.netFailure 60000) (by decide)

/-- Claim C10: validation only tests for the empty string, so an order
number consisting of a single space passes validation and is sent
verbatim in the `OrderNumber` field of the request body. -/
theorem C10_whitespace_passes_validation :
    isValid fdWS = true ∧
    (handleSubmit fdWS envOkC).requests = [mkRequest fdWS] ∧
    ("OrderNumber", " ") ∈ (mkRequest fdWS).body := by
  refine ⟨rfl, rfl, ?_⟩
  decide

/-- Claim C3: for a valid record, whenever the exchange resolves with
anything other than a 2xx response carrying the accepted-success message
(a rejected message, an absent message, a non-2xx status, a transport
failure, or an unparseable body), `handleSubmit` sets the status to
error, leaves the form data unchanged, and schedules one 3000 ms reset
to idle. -/
theorem C3_error_outcome (fd : FormData) (env : FetchResult)
    (hvalid : isValid fd = true)
    (hfail : (∃ d, env = FetchResult.netFailure d) ∨
      (∃ d st, env = FetchResult.arrived d st BodyResult.parseError) ∨
      (∃ d st, env = FetchResult.arrived d st (BodyResult.parsed none)) ∨
      (∃ d st msg, env = FetchResult.arrived d st (BodyResult.parsed (some msg)) ∧
        (respOk st = false ∨ msg ≠ acceptedMessage))) :
    (handleSubmit fd env).finalStatus = .error ∧
    (handleSubmit fd env).formData = fd ∧
    (handleSubmit fd env).scheduledResets = [{ delayMs := 3000, action := .toIdle }] := by
  have hc : classify env = Outcome.failure := by
    rcases hfail with ⟨d, rfl⟩ | ⟨d, st, rfl⟩ | ⟨d, st, rfl⟩ | ⟨d, st, msg, rfl, hbad⟩
    · unfold classify
      split <;> rfl
    · unfold classify
      split <;> rfl
    · unfold classify
      split <;> simp
    · unfold classify
      split
      · rfl
      · rcases hbad with hbad | hbad <;> simp [hbad]
  simp [handleSubmit, hvalid, hc]

/-- Witness for C3: a 200 response with a rejected message. -/
theorem C3_error_outcome_witness :
    (handleSubmit fdC envRejC).finalStatus = SubmitStatus.error ∧
    (handleSubmit fdC envRejC).formData = fdC ∧
    (handleSubmit fdC envRejC).scheduledResets =
      [{ delayMs := 3000, action := TimerAction.toIdle }] :=
  C3_error_outcome fdC envRejC (by decide)
    (Or.inr (Or.inr (Or.inr ⟨100, 200, "Workflow failed", rfl, Or.inr (by decide)⟩)))

/-- Claim C4: for a valid record, if the exchange would take longer than
the 50-second budget, the in-flight request is aborted, the status
becomes error (with a 3000 ms reset to idle), and no status assignment
of the attempt ever sets success, whatever the late response would have
contained. -/
theorem C4_timeout_aborts (fd : FormData) (env : FetchResult)
    (hvalid : isValid fd = true) (hlate : timeoutMs < envDelay env) :
    (handleSubmit fd env).aborted = true ∧
    (handleSubmit fd env).finalStatus = .error ∧
    SubmitStatus.success ∉ (handleSubmit fd env).statusSets ∧
    (handleSubmit fd env).scheduledResets = [{ delayMs := 3000, action := .toIdle }] := by
  have hab : abortFired env = true := by
    simp [abortFired]
    exact hlate
  have hc : classify env = Outcome.failure := by
    simp [classify, hab]
  simp [handleSubmit, hvalid, hc, hab]

/-- Witness for C4: a response that would have carried the
accepted-success message, arriving at 60000 ms, still ends in an aborted
error with no success assignment. -/
theorem C4_timeout_aborts_witness :
    (handleSubmit fdC (.arrived 60000 200 (.parsed (some acceptedMessage)))).aborted = true ∧
    (handleSubmit fdC (.arrived 60000 200 (.parsed (some acceptedMessage)))).finalStatus =
        SubmitStatus.error ∧
    SubmitStatus.success ∉
      (handleSubmit fdC (.arrived 60000 200 (.parsed (some acceptedMessage)))).statusSets ∧
    (handleSubmit fdC (.arrived 60000 200 (.parsed (some acceptedMessage)))).scheduledResets =
      [{ delayMs := 3000, action := TimerAction.toIdle }] :=
  C4_timeout_aborts fdC (.arrived 60000 200 (.parsed (some acceptedMessage)))
    (by decide) (by decide)

/-- Claim C5 (code bug): the submit button is disabled while
`isSubmitting` is true, but the Ctrl+Enter path (`handleKeyDown`) calls
`handleSubmit` without consulting `isSubmitting`, so with a submission
outstanding and a valid record it still issues a network call. -/
theorem C5_ctrl_enter_bypasses_guard :
    submitButtonDisabled true = true ∧
    handleKeyDown { ctrlKey := true, key := "Enter" } true fdC envOkC =
      some (handleSubmit fdC envOkC) ∧
    (handleSubmit fdC envOkC).requests = [mkRequest fdC] := by
  refine ⟨rfl, ?_, rfl⟩
  simp [handleKeyDown]

/-- Claim C8 counterexample: on a non-2xx response the code still
attempts to parse the body (`response.json()` at line 80 runs before the
`response.ok` test at line 85), contradicting the claim that the
transport check comes first and parsing is only attempted for 2xx
responses. -/
theorem C8_counterexample :
    respOk 500 = false ∧
    (handleSubmit fdC (.arrived 100 500 BodyResult.parseError)).bodyParseAttempted = true := by
  decide

/-- Claim C8 as amended: whenever a response arrives before the timeout,
the controller always attempts to parse the body as JSON, regardless of
the HTTP status; a non-2xx response still ends in the error status,
either through the combined ok-and-message test or through the catch
path when parsing fails. -/
theorem C8_amended_parse_first (fd : FormData) (d st : Nat) (b : BodyResult)
    (hvalid : isValid fd = true) (hd : d ≤ timeoutMs) :
    (handleSubmit fd (.arrived d st b)).bodyParseAttempted = true ∧
    (respOk st = false →
      (handleSubmit fd (.arrived d st b)).finalStatus = SubmitStatus.error) := by
  have hab : abortFired (.arrived d st b) = false := by
    simp [abortFired, envDelay]
    exact hd
  have hp : parseAttempted (.arrived d st b) = true := by
    simp [parseAttempted, hab]
  constructor
  · cases hc : classify (.arrived d st b) <;> simp [handleSubmit, hvalid, hc, hp]
  · intro hbad
    have hc : classify (.arrived d st b) = Outcome.failure := by
      cases b with
      | parseError => simp [classify, hab]
      | parsed msg => simp [classify, hab, hbad]
    simp [handleSubmit, hvalid, hc]

/-- Witness for the amended C8 at a non-2xx response with a parseable
body. -/
theorem C8_amended_parse_first_witness :
    (handleSubmit fdC (.arrived 100 500 (.parsed (some "Workflow failed")))).bodyParseAttempted =
        true ∧
    (respOk 500 = false →
      (handleSubmit fdC (.arrived 100 500 (.parsed (some "Workflow failed")))).finalStatus =
        SubmitStatus.error) :=
  C8_amended_parse_first fdC 100 500 (.parsed (some "Workflow failed")) (by decide) (by decide)

/-! ### Timer bookkeeping lemmas for the event-loop model -/

/-- Inserting a timer preserves the timers already pending. -/
theorem mem_insertTimer (l : List Timer) (tm tm2 : Timer) (h : tm ∈ l) :
    tm ∈ insertTimer l tm2 := by
  induction l with
  | nil => cases h
  | cons hd tl ih =>
    rw [insertTimer]
    rcases List.mem_cons.mp h with rfl | hmem
    · split
      · exact List.mem_cons_of_mem _ (List.mem_cons_self _ _)
      · exact List.mem_cons_self _ _
    · split
      · exact List.mem_cons_of_mem _ h
      · exact List.mem_cons_of_mem _ (ih hmem)

/-- Firing due timers never removes entries from the status trace. -/
theorem fireDueAux_trace_mono (l : List Timer) (t : Nat) (st : SubmitStatus)
    (tr : List (Nat × SubmitStatus)) (x : Nat × SubmitStatus) (h : x ∈ tr) :
    x ∈ (fireDueAux l t st tr).2.2 := by
  induction l generalizing st tr with
  | nil => exact h
  | cons hd tl ih =>
    rw [fireDueAux]
    split
    · exact ih _ _ (List.mem_append_left _ h)
    · exact h

/-- A pending timer either survives a pass of `fireDueAux` or has fired,
leaving its idle assignment in the trace at its own fire time. -/
theorem fireDueAux_mem (l : List Timer) (t : Nat) (st : SubmitStatus)
    (tr : List (Nat × SubmitStatus)) (tm : Timer) (h : tm ∈ l) :
    tm ∈ (fireDueAux l t st tr).1 ∨
      (tm.fireAt, SubmitStatus.idle) ∈ (fireDueAux l t st tr).2.2 := by
  induction l generalizing st tr with
  | nil => cases h
  | cons hd tl ih =>
    rw [fireDueAux]
    split
    · rcases List.mem_cons.mp h with rfl | hmem
      · exact Or.inr (fireDueAux_trace_mono _ _ _ _ _ (List.mem_append_right _ (by simp)))
      · exact ih _ _ hmem
    · exact Or.inl h

/-- A pending timer either survives `fireDue` or its firing is recorded
in the trace. -/
theorem fireDue_mem (w : World) (t : Nat) (tm : Timer) (h : tm ∈ w.timers) :
    tm ∈ (fireDue w t).timers ∨ (tm.fireAt, SubmitStatus.idle) ∈ (fireDue w t).trace := by
  have hx := fireDueAux_mem w.timers t w.status w.trace tm h
  unfold fireDue
  rcases hEq : fireDueAux w.timers t w.status w.trace with ⟨tms, st, tr⟩
  rw [hEq] at hx
  simpa using hx

/-- `fireDue` never removes entries from the status trace. -/
theorem fireDue_trace_mono (w : World) (t : Nat) (x : Nat × SubmitStatus)
    (h : x ∈ w.trace) : x ∈ (fireDue w t).trace := by
  have hx := fireDueAux_trace_mono w.timers t w.status w.trace x h
  unfold fireDue
  rcases hEq : fireDueAux w.timers t w.status w.trace with ⟨tms, st, tr⟩
  rw [hEq] at hx
  simpa using hx

/-- Claim C7 counterexample: attempt 1 at time 0 (fast 500 response)
leaves a reset timer due at 3100 ms; attempt 2 starts at 2000 ms and
resolves in error at 2100 ms, scheduling its own reset for 5100 ms.  The
stale timer from attempt 1 is still pending after attempt 2 starts — it
was not cancelled — and when it fires at 3100 ms it flips the status
that attempt 2 set at 2100 ms from error back to idle while attempt 2's
own reset is still pending. -/
theorem C7_counterexample :
    ({ fireAt := 3100, action := TimerAction.toIdle } : Timer) ∈
      (submitAt (submitAt w0C 0 envErrFast) 2000 envErrFast).timers ∧
    (submitAt (submitAt w0C 0 envErrFast) 2000 envErrFast).status = SubmitStatus.error ∧
    (fireDue (submitAt (submitAt w0C 0 envErrFast) 2000 envErrFast) 3100).status =
      SubmitStatus.idle ∧
    ({ fireAt := 5100, action := TimerAction.toIdle } : Timer) ∈
      (fireDue (submitAt (submitAt w0C 0 envErrFast) 2000 envErrFast) 3100).timers := by
  decide

/-- Claim C7 as amended: a reset timer pending when a new submission
begins is never cancelled — after the new attempt it is either still
pending or it has fired, recording its idle assignment in the trace at
its own fire time (so a stale reset can overwrite the status set by the
new attempt). -/
theorem C7_amended_no_cancellation (w : World) (t : Nat) (env : FetchResult) (tm : Timer)
    (h : tm ∈ w.timers) :
    tm ∈ (submitAt w t env).timers ∨
      (tm.fireAt, SubmitStatus.idle) ∈ (submitAt w t env).trace := by
  have h1 := fireDue_mem w t tm h
  unfold submitAt
  by_cases hv : isValid (fireDue w t).fd
  · simp only [hv, Bool.not_true, Bool.false_eq_true, if_false]
    set wB : World :=
      { fireDue w t with
        isSubmitting := true,
        status := .idle,
        trace := (fireDue w t).trace ++ [(t, .idle)] } with hwB
    have hB : tm ∈ wB.timers ∨ (tm.fireAt, SubmitStatus.idle) ∈ wB.trace := by
      rcases h1 with h1 | h1
      · exact Or.inl h1
      · exact Or.inr (List.mem_append_left _ h1)
    have hC : tm ∈ (fireDue wB (t + resolveDelay env)).timers ∨
        (tm.fireAt, SubmitStatus.idle) ∈ (fireDue wB (t + resolveDelay env)).trace := by
      rcases hB with hB | hB
      · exact fireDue_mem wB _ tm hB
      · exact Or.inr (fireDue_trace_mono wB _ _ hB)
    cases hc : classify env
    · simp only [hc]
      rcases hC with hC | hC
      · exact Or.inl (mem_insertTimer _ _ _ hC)
      · exact Or.inr (List.mem_append_left _ hC)
    · simp only [hc]
      rcases hC with hC | hC
      · exact Or.inl (mem_insertTimer _ _ _ hC)
      · exact Or.inr (List.mem_append_left _ hC)
  · simp only [Bool.not_eq_true] at hv
    simp only [hv, Bool.not_false, if_true]
    rcases h1 with h1 | h1
    · exact Or.inl (mem_insertTimer _ _ _ h1)
    · exact Or.inr (List.mem_append_left _ h1)

/-- Witness for the amended C7 at the concrete two-attempt scenario. -/
theorem C7_amended_no_cancellation_witness :
    ({ fireAt := 3100, action := TimerAction.toIdle } : Timer) ∈
      (submitAt (submitAt w0C 0 envErrFast) 2000 envErrFast).timers ∨
    ((3100 : Nat), SubmitStatus.idle) ∈
      (submitAt (submitAt w0C 0 envErrFast) 2000 envErrFast).trace :=
  C7_amended_no_cancellation (submitAt w0C 0 envErrFast) 2000 envErrFast
    { fireAt := 3100, action := TimerAction.toIdle } (by decide)

end A2KReturns
